import Mathlib

/-!
Verification of the document-to-verdict batch pipeline of `src/app.py`
(Resume Matcher Pro): Document Loader, Verdict Requester, Result Parser,
Retry Wrapper, Batch Orchestrator and Ranker.

The pipeline is embedded shallowly: external effects (the PDF library and
the generative-model API) are oracles recorded per uploaded file, Python
exceptions are `Except`/`Option`, `json.loads` is a fueled recursive-descent
parser over `List Char`, and Python's stable `sorted(..., reverse=True)` is
`List.mergeSort` with the reversed comparison.  All definitions are
fuel-structural so that they evaluate inside the kernel.
-/

namespace HR

/-- JSON values as produced by Python's `json.loads`.  Numbers are modelled
as exact rationals: Python parses integer literals exactly and fraction or
exponent literals as floats; the claims only depend on the ordering of
scores, for which `Rat` is the idealisation. -/
inductive Json where
  | null : Json
  | bool (b : Bool) : Json
  | num (q : Rat) : Json
  | str (s : String) : Json
  | arr (elems : List Json) : Json
  | obj (fields : List (String × Json)) : Json

/-- Whether a JSON value is an object (a Python `dict` after `json.loads`). -/
def Json.isObj : Json → Bool
  | .obj _ => true
  | _ => false

/-- A parsed verdict: the Python `dict` produced by `json.loads`, as an
association list with at most one binding per key (as `dictInsert` and the
object builder maintain). -/
abbrev Dict := List (String × Json)

/-- Python `dict` lookup `d.get(k)`: the value bound to `k`, if any. -/
def dictGet : Dict → String → Option Json
  | [], _ => none
  | (k, v) :: rest, key => if k = key then some v else dictGet rest key

/-- Python `d[k] = v`: overwrite the value in place when the key is present
(keeping its position), append the binding otherwise. -/
def dictInsert : Dict → String → Json → Dict
  | [], key, v => [(key, v)]
  | (k, w) :: rest, key, v =>
    if k = key then (k, v) :: rest else (k, w) :: dictInsert rest key v

/-- The whitespace characters removed by Python's `str.strip()` (ASCII part;
the claims involve no exotic Unicode spaces). -/
def isPySpace (c : Char) : Bool :=
  c = ' ' || c = '\t' || c = '\n' || c = '\r' || c = '\x0b' || c = '\x0c'

/-- Python `s.strip()`: drop leading and trailing whitespace. -/
def pyStrip (l : List Char) : List Char :=
  ((l.dropWhile isPySpace).reverse.dropWhile isPySpace).reverse

/-- Python `s.replace(pat, "")` for a non-empty `pat`: remove the leftmost,
non-overlapping occurrences, scanning left to right.  Fuel-structural (one
unit of fuel per character inspected) so that it reduces in the kernel;
`removeAll` supplies sufficient fuel. -/
def removeAllGo (pat : List Char) : Nat → List Char → List Char
  | _, [] => []
  | 0, l => l
  | fuel+1, c :: cs =>
    if pat.isPrefixOf (c :: cs) then removeAllGo pat fuel (cs.drop (pat.length - 1))
    else c :: removeAllGo pat fuel cs

/-- Python `s.replace(pat, "")` (see `removeAllGo`). -/
def removeAll (pat l : List Char) : List Char := removeAllGo pat l.length l

/-- The characters of the opening code-fence marker stripped first. -/
def fence7 : List Char := "```json".data

/-- The characters of the bare code-fence marker stripped second. -/
def fence3 : List Char := "```".data

/-- Python expression `resp.replace("```json", "").replace("```", "").strip()`
(src/app.py line 161). -/
def clean_json (resp : String) : String :=
  ⟨pyStrip (removeAll fence3 (removeAll fence7 resp.data))⟩

/-- The whitespace skipped between JSON tokens (RFC 8259, as in Python's
`json` scanner). -/
def isJsonWs (c : Char) : Bool :=
  c = ' ' || c = '\t' || c = '\n' || c = '\r'

/-- Skip JSON inter-token whitespace. -/
def skipWs (l : List Char) : List Char := l.dropWhile isJsonWs

/-- Hexadecimal digit test for `\uXXXX` escapes. -/
def isHex (c : Char) : Bool :=
  c.isDigit || ('a' ≤ c && c ≤ 'f') || ('A' ≤ c && c ≤ 'F')

/-- Value of a hexadecimal digit. -/
def hexVal (c : Char) : Nat :=
  if c.isDigit then c.toNat - '0'.toNat
  else if 'a' ≤ c && c ≤ 'f' then c.toNat - 'a'.toNat + 10
  else c.toNat - 'A'.toNat + 10

/-- The single-character JSON string escapes. -/
def escChar : Char → Option Char
  | '"' => some '"'
  | '\\' => some '\\'
  | '/' => some '/'
  | 'b' => some '\x08'
  | 'f' => some '\x0c'
  | 'n' => some '\n'
  | 'r' => some '\r'
  | 't' => some '\t'
  | _ => none

/-- Body of a JSON string literal, after the opening quote: strict mode as in
`json.loads` (raw control characters below `0x20` are rejected, only the
standard escapes and `\uXXXX` are allowed; a lone surrogate escape, which
Python would keep, is idealised by `Char.ofNat`).  Returns the decoded
characters and the input after the closing quote. -/
def parseJStringGo : Nat → List Char → Option (List Char × List Char)
  | 0, _ => none
  | _+1, [] => none
  | fuel+1, c :: cs =>
    if c = '"' then some ([], cs)
    else if c = '\\' then
      match cs with
      | [] => none
      | e :: cs' =>
        if e = 'u' then
          match cs' with
          | h1 :: h2 :: h3 :: h4 :: cs'' =>
            if isHex h1 && isHex h2 && isHex h3 && isHex h4 then
              match parseJStringGo fuel cs'' with
              | some (s, r) =>
                some (Char.ofNat (((hexVal h1 * 16 + hexVal h2) * 16 + hexVal h3) * 16 + hexVal h4) :: s, r)
              | none => none
            else none
          | _ => none
        else
          match escChar e with
          | some ec =>
            match parseJStringGo fuel cs' with
            | some (s, r) => some (ec :: s, r)
            | none => none
          | none => none
    else if c.toNat < 32 then none
    else
      match parseJStringGo fuel cs with
      | some (s, r) => some (c :: s, r)
      | none => none

/-- A JSON string literal body (see `parseJStringGo`). -/
def parseJString (l : List Char) : Option (String × List Char) :=
  match parseJStringGo l.length l with
  | some (s, r) => some (⟨s⟩, r)
  | none => none

/-- Digits to their decimal value. -/
def digitsToNat (l : List Char) : Nat :=
  l.foldl (fun n c => 10 * n + (c.toNat - '0'.toNat)) 0

/-- A JSON number, following the grammar used by Python's scanner
(`-?(0|[1-9][0-9]*)(\.[0-9]+)?([eE][+-]?[0-9]+)?`, matched greedily; an
unusable `.` or exponent is left unconsumed, exactly as the regex does).
Returns its exact rational value. -/
def parseNumber (l : List Char) : Option (Rat × List Char) :=
  let signSplit : Bool × List Char :=
    match l with
    | '-' :: rest => (true, rest)
    | _ => (false, l)
  let neg := signSplit.1
  let l1 := signSplit.2
  match l1 with
  | [] => none
  | d :: rest =>
    if ¬ d.isDigit then none else
    let ipSplit : List Char × List Char :=
      if d = '0' then ([d], rest)
      else (l1.takeWhile Char.isDigit, l1.dropWhile Char.isDigit)
    let ipart := ipSplit.1
    let r1 := ipSplit.2
    let fpSplit : List Char × List Char :=
      match r1 with
      | '.' :: rest' =>
        if (rest'.takeWhile Char.isDigit).isEmpty then ([], r1)
        else (rest'.takeWhile Char.isDigit, rest'.dropWhile Char.isDigit)
      | _ => ([], r1)
    let fpart := fpSplit.1
    let r2 := fpSplit.2
    let expSplit : Option (Bool × List Char) × List Char :=
      match r2 with
      | e :: rest' =>
        if e = 'e' || e = 'E' then
          let esSplit : Bool × List Char :=
            match rest' with
            | '+' :: t => (false, t)
            | '-' :: t => (true, t)
            | _ => (false, rest')
          if (esSplit.2.takeWhile Char.isDigit).isEmpty then (none, r2)
          else (some (esSplit.1, esSplit.2.takeWhile Char.isDigit), esSplit.2.dropWhile Char.isDigit)
        else (none, r2)
      | _ => (none, r2)
    let k := fpart.length
    let base : Int :=
      (if neg then -1 else 1) * (digitsToNat ipart * 10 ^ k + digitsToNat fpart : Nat)
    let scaled : Rat :=
      match expSplit.1 with
      | some (true, ed) => mkRat base (10 ^ k * 10 ^ digitsToNat ed)
      | some (false, ed) => mkRat (base * 10 ^ digitsToNat ed) (10 ^ k)
      | none => mkRat base (10 ^ k)
    some (scaled, expSplit.2)

/-- Build a Python `dict` from object members in source order: each member is
`d[key] = value`, so a duplicate key keeps its first position with its last
value. -/
def buildDict (ms : List (String × Json)) : Dict :=
  ms.foldl (fun d kv => dictInsert d kv.1 kv.2) []

/-- The recursive-descent JSON reader, indexed by fuel (one level per nested
call, always after at least one character of progress).  Components: a JSON
value; the elements of a non-empty array including the closing bracket; the
members of a non-empty object including the closing brace. -/
def jsonP : Nat →
    (List Char → Option (Json × List Char)) ×
    (List Char → Option (List Json × List Char)) ×
    (List Char → Option (List (String × Json) × List Char))
  | 0 => (fun _ => none, fun _ => none, fun _ => none)
  | fuel+1 =>
    ( fun l =>
        match skipWs l with
        | [] => none
        | c :: rest =>
          if c = '"' then
            match parseJString rest with
            | some (s, r) => some (Json.str s, r)
            | none => none
          else if c = '\x7b' then
            match skipWs rest with
            | '\x7d' :: r => some (Json.obj [], r)
            | _ =>
              match (jsonP fuel).2.2 rest with
              | some (ms, r) => some (Json.obj (buildDict ms), r)
              | none => none
          else if c = '[' then
            match skipWs rest with
            | ']' :: r => some (Json.arr [], r)
            | _ =>
              match (jsonP fuel).2.1 rest with
              | some (vs, r) => some (Json.arr vs, r)
              | none => none
          else if c = 't' then
            match rest with
            | 'r' :: 'u' :: 'e' :: r => some (Json.bool true, r)
            | _ => none
          else if c = 'f' then
            match rest with
            | 'a' :: 'l' :: 's' :: 'e' :: r => some (Json.bool false, r)
            | _ => none
          else if c = 'n' then
            match rest with
            | 'u' :: 'l' :: 'l' :: r => some (Json.null, r)
            | _ => none
          else if c = '-' || c.isDigit then
            match parseNumber (c :: rest) with
            | some (q, r) => some (Json.num q, r)
            | none => none
          else none,
      fun l =>
        match (jsonP fuel).1 l with
        | none => none
        | some (v, r1) =>
          match skipWs r1 with
          | ',' :: r2 =>
            match (jsonP fuel).2.1 r2 with
            | some (vs, r) => some (v :: vs, r)
            | none => none
          | ']' :: r2 => some ([v], r2)
          | _ => none,
      fun l =>
        match skipWs l with
        | '"' :: rest =>
          match parseJString rest with
          | none => none
          | some (k, r1) =>
            match skipWs r1 with
            | ':' :: r2 =>
              match (jsonP fuel).1 r2 with
              | none => none
              | some (v, r3) =>
                match skipWs r3 with
                | ',' :: r4 =>
                  match (jsonP fuel).2.2 r4 with
                  | some (ms, r) => some ((k, v) :: ms, r)
                  | none => none
                | '\x7d' :: r4 => some ([(k, v)], r4)
                | _ => none
            | _ => none
        | _ => none )

/-- Python `json.loads` (strict): one JSON value surrounded by whitespace
only; anything else raises, modelled as `none`.  The fuel is generous: the
reader spends at most two fuel levels per input character. -/
def json_loads (s : String) : Option Json :=
  match (jsonP (2 * s.data.length + 2)).1 s.data with
  | some (v, rest) => if skipWs rest = [] then some v else none
  | none => none

/-- One body of the retry loop (src/app.py lines 160-165) from the raw
response onwards: clean and parse the response, then augment with the source
file's identity (`data['file'] = file.name`).  `none` is the `except` path:
`json.loads` raised, or the item assignment raised because the top-level
value is not an object.  No schema validation is performed. -/
def parse_attempt (file_name : String) (resp : String) : Option Dict :=
  match json_loads (clean_json resp) with
  | some (Json.obj fs) => some (dictInsert fs "file" (Json.str file_name))
  | _ => none

/-- The combined prompt string built at src/app.py line 100. -/
def combined_prompt (input_prompt job_description pdf_content : String) : String :=
  input_prompt ++ "\n\n### JOB DESCRIPTION:\n" ++ job_description ++ "\n\n### RESUME:\n" ++ pdf_content

/-- Function `get_gemini_response` (src/app.py lines 96-104).  The external client is
an oracle from the combined prompt to either a raised exception's message or
the response text; every exception is caught at this boundary and turned
into the error-marked string `"Error: " ++ e`, never re-raised. -/
def get_gemini_response (oracle : String → Except String String)
    (input_prompt pdf_content job_description : String) : String :=
  match oracle (combined_prompt input_prompt job_description pdf_content) with
  | .ok t => t
  | .error e => "Error: " ++ e

/-- The retry loop (src/app.py lines 158-167): `for _ in range(budget)` with
`break` on the first successful attempt.  `op k` is the outcome of attempt
number `k` (the composed request-and-parse operation).  Returns the produced
verdict, if any, together with the total number of attempts made. -/
def retry_loop (op : Nat → Option Dict) : Nat → Nat → Option Dict × Nat
  | 0, k => (none, k)
  | budget+1, k =>
    match op k with
    | some v => (some v, k + 1)
    | none => retry_loop op budget (k + 1)

/-- The retry loop with the source's fixed attempt budget of 3. -/
def run_retries (op : Nat → Option Dict) : Option Dict × Nat :=
  retry_loop op 3 0

/-- An uploaded file together with the recorded outcomes of its external
interactions: `extract` is the result of `input_pdf_text` (an exception or
the concatenated page text), and `oracle k` is the model client's behaviour
on attempt number `k` (an exception or the raw response text). -/
structure UploadedFile where
  name : String
  extract : Except String String
  oracle : Nat → String → Except String String

/-- Function `input_pdf_text` (src/app.py lines 106-111): PDF text extraction by the
external PDF library, recorded as an oracle on the file.  A failure is an
uncaught exception. -/
def input_pdf_text (f : UploadedFile) : Except String String := f.extract

/-- Attempt number `k` for one file: request the model and parse the
response (the body of the `try` at src/app.py lines 159-165). -/
def file_attempt (input_prompt jd : String) (f : UploadedFile) (text : String)
    (k : Nat) : Option Dict :=
  parse_attempt f.name (get_gemini_response (f.oracle k) input_prompt text jd)

/-- The batch loop (src/app.py lines 147-168).  Files are processed strictly
in upload order.  `input_pdf_text` is called outside the `try`, so an
extraction exception propagates out of the loop and aborts the whole run
(`Except.error`: no result list is ever produced).  Otherwise the file's
retry result, when present, is appended to the collected results. -/
def run_batch (input_prompt jd : String) : List UploadedFile → Except String (List Dict)
  | [] => .ok []
  | f :: rest =>
    match input_pdf_text f with
    | .error e => .error e
    | .ok text =>
      match run_batch input_prompt jd rest with
      | .error e => .error e
      | .ok tailResults =>
        .ok ((run_retries (file_attempt input_prompt jd f text)).1.toList ++ tailResults)

/-- Python expression `x.get('score', 0)` (src/app.py line 174): the sort key, with the
documented default of `0` for a missing score. -/
def get_score (d : Dict) : Json := (dictGet d "score").getD (Json.num 0)

/-- The numeric value of the sort key.  Faithful to Python exactly on
verdicts whose `score` is a number or absent (the schema's case; on mixed
non-numeric scores Python's `sorted` would raise `TypeError`). -/
def score_key (d : Dict) : Rat :=
  match get_score d with
  | Json.num q => q
  | _ => 0

/-- Whether a verdict's score is a number or absent, i.e. within the domain
on which `score_key` is faithful to Python's comparison. -/
def score_is_numeric (d : Dict) : Bool :=
  match dictGet d "score" with
  | none => true
  | some (Json.num _) => true
  | some _ => false

/-- The comparison under which Python's stable descending sort orders the
verdicts: `a` may precede `b` when the score of `b` is at most that of `a`. -/
def rank_le (a b : Dict) : Bool := decide (score_key b ≤ score_key a)

/-- Python expression `sorted(results, key=lambda x: x.get('score', 0), reverse=True)[:n_matches]`
(src/app.py line 174): Python's sort is stable, and `reverse=True` preserves
the original order of ties, which is exactly `mergeSort` under `rank_le`. -/
def top_candidates (results : List Dict) (n_matches : Nat) : List Dict :=
  (results.mergeSort rank_le).take n_matches

/-- A fixed instruction prompt and job description for the concrete batches
below (their content is irrelevant to the oracles). -/
def tPROMPT : String := "You are a strict Technical Recruiter."

/-- Concrete job description for the concrete batches below. -/
def tJD : String := "Senior backend engineer, Go, 5+ years"

/-- Concrete file: extraction succeeds, the model answers a well-formed
verdict on every attempt. -/
def fileA : UploadedFile :=
  ⟨"a.pdf", .ok "TEXT A", fun _ _ => .ok "\x7b\"name\": \"Ann\", \"score\": 90\x7d"⟩

/-- Concrete file: `input_pdf_text` raises (corrupt PDF). -/
def fileB : UploadedFile :=
  ⟨"b.pdf", .error "PdfReadError: EOF marker not found", fun _ _ => .ok "\x7b\"score\": 80\x7d"⟩

/-- Concrete file: extraction succeeds, the model answers a well-formed
verdict on every attempt. -/
def fileC : UploadedFile :=
  ⟨"c.pdf", .ok "TEXT C", fun _ _ => .ok "\x7b\"name\": \"Cy\", \"score\": 70\x7d"⟩

/-- Concrete file for the C9 counterexample: extraction succeeds and the
model answers a well-formed verdict. -/
def fileD : UploadedFile :=
  ⟨"d.pdf", .ok "TEXT D", fun _ _ => .ok "\x7b\"score\": 55\x7d"⟩

/-- Concrete file for the C9 counterexample: extraction raises. -/
def fileE : UploadedFile :=
  ⟨"e.pdf", .error "PdfReadError: could not read malformed PDF file", fun _ _ => .ok "\x7b\"score\": 50\x7d"⟩

/-- Concrete file for the C9 counterexample: extraction succeeds and the
model answers a well-formed verdict. -/
def fileF : UploadedFile :=
  ⟨"f.pdf", .ok "TEXT F", fun _ _ => .ok "\x7b\"score\": 45\x7d"⟩

/-- Concrete file whose extraction succeeds but whose model output is never
parseable, so every attempt fails and the file is silently dropped. -/
def fileG : UploadedFile :=
  ⟨"g.pdf", .ok "TEXT G", fun _ _ => .ok "I cannot evaluate this resume."⟩

/-! ### Helper lemmas about `List.isPrefixOf` and `removeAll` -/

theorem ipo_length : ∀ (p l : List Char), p.isPrefixOf l = true → p.length ≤ l.length := by
  intro p
  induction p with
  | nil => intro l _; simp
  | cons a as ih =>
    intro l h
    match l with
    | [] => simp [List.isPrefixOf] at h
    | b :: bs =>
      simp only [List.isPrefixOf, Bool.and_eq_true] at h
      simpa using ih bs h.2

theorem ipo_append : ∀ (p l m : List Char), p.isPrefixOf l = true → p.isPrefixOf (l ++ m) = true := by
  intro p
  induction p with
  | nil => intro l m _; simp [List.isPrefixOf]
  | cons a as ih =>
    intro l m h
    match l with
    | [] => simp [List.isPrefixOf] at h
    | b :: bs =>
      simp only [List.isPrefixOf, Bool.and_eq_true] at h ⊢
      exact ⟨h.1, ih bs m h.2⟩

theorem ipo_of_append_long : ∀ (p l m : List Char), p.isPrefixOf (l ++ m) = true →
    p.length ≤ l.length → p.isPrefixOf l = true := by
  intro p
  induction p with
  | nil => intro l m _ _; simp [List.isPrefixOf]
  | cons a as ih =>
    intro l m h hlen
    match l with
    | [] => simp at hlen
    | b :: bs =>
      simp only [List.cons_append, List.isPrefixOf, Bool.and_eq_true] at h ⊢
      exact ⟨h.1, ih bs m h.2 (by simpa using hlen)⟩

theorem ipo_self_append : ∀ (p m : List Char), p.isPrefixOf (p ++ m) = true := by
  intro p
  induction p with
  | nil => intro m; simp [List.isPrefixOf]
  | cons a as ih =>
    intro m
    simp only [List.cons_append, List.isPrefixOf, Bool.and_eq_true]
    exact ⟨by simp, ih m⟩

theorem ipo_take : ∀ (p l : List Char), p.isPrefixOf l = true → l.take p.length = p := by
  intro p
  induction p with
  | nil => intro l _; simp
  | cons a as ih =>
    intro l h
    match l with
    | [] => simp [List.isPrefixOf] at h
    | b :: bs =>
      simp only [List.isPrefixOf, Bool.and_eq_true] at h
      have hb : b = a := (eq_of_beq h.1).symm
      simp [hb, ih bs h.2]

theorem removeAllGo_congr (pat : List Char) :
    ∀ (f₁ f₂ : Nat) (l : List Char), l.length ≤ f₁ → l.length ≤ f₂ →
      removeAllGo pat f₁ l = removeAllGo pat f₂ l := by
  intro f₁
  induction f₁ with
  | zero =>
    intro f₂ l h₁ _
    have hl : l = [] := List.eq_nil_of_length_eq_zero (Nat.le_zero.mp h₁)
    subst hl
    cases f₂ <;> rfl
  | succ n ih =>
    intro f₂ l h₁ h₂
    match l with
    | [] => cases f₂ <;> rfl
    | c :: cs =>
      match f₂ with
      | 0 => simp at h₂
      | m+1 =>
        simp only [removeAllGo]
        by_cases hp : pat.isPrefixOf (c :: cs) = true
        · simp only [hp, if_true]
          have hd : (cs.drop (pat.length - 1)).length ≤ cs.length := by
            simp [List.length_drop]
          have h₁' : cs.length ≤ n := by simpa using h₁
          have h₂' : cs.length ≤ m := by simpa using h₂
          exact ih m _ (le_trans hd h₁') (le_trans hd h₂')
        · simp only [Bool.not_eq_true] at hp
          simp only [hp, Bool.false_eq_true, if_false]
          have h₁' : cs.length ≤ n := by simpa using h₁
          have h₂' : cs.length ≤ m := by simpa using h₂
          rw [ih m cs h₁' h₂']

theorem removeAll_cons_pos (pat : List Char) (c : Char) (cs : List Char)
    (h : pat.isPrefixOf (c :: cs) = true) :
    removeAll pat (c :: cs) = removeAll pat (cs.drop (pat.length - 1)) := by
  show removeAllGo pat (cs.length + 1) (c :: cs) = _
  simp only [removeAllGo, h, if_true]
  exact removeAllGo_congr pat cs.length _ _ (by simp [List.length_drop]) le_rfl

theorem removeAll_cons_neg (pat : List Char) (c : Char) (cs : List Char)
    (h : pat.isPrefixOf (c :: cs) = false) :
    removeAll pat (c :: cs) = c :: removeAll pat cs := by
  show removeAllGo pat (cs.length + 1) (c :: cs) = _
  simp only [removeAllGo, h, Bool.false_eq_true, if_false, removeAll]

theorem fence7_eq : fence7 = ['`', '`', '`', 'j', 's', 'o', 'n'] := rfl

theorem fence3_eq : fence3 = ['`', '`', '`'] := rfl

theorem removeAll_f7_self (x : List Char) :
    removeAll fence7 (fence7 ++ x) = removeAll fence7 x := by
  have h : fence7.isPrefixOf (fence7 ++ x) = true := ipo_self_append _ _
  have e : fence7 ++ x = '`' :: ("``json".data ++ x) := rfl
  rw [e] at h
  rw [e, removeAll_cons_pos _ _ _ h]
  rw [show fence7.length - 1 = 6 from rfl, List.drop_append_eq_append_drop]
  rw [show List.drop 6 "``json".data = [] from rfl,
      show 6 - ("``json".data).length = 0 from rfl]
  simp

theorem fence3_take_getLast : ∀ k : Nat, 1 ≤ k → (fence3.take k).getLast? = some '`' := by
  intro k hk
  match k with
  | 0 => simp at hk
  | 1 => rfl
  | 2 => rfl
  | n+3 =>
    rw [List.take_of_length_le (by simp [fence3_eq])]
    rfl

theorem f7_needs_seven : ∀ x : List Char, fence7.isPrefixOf (x ++ fence3) = true →
    7 ≤ x.length := by
  intro x h
  by_contra hc
  push_neg at hc
  have hk : 1 ≤ 7 - x.length := by omega
  have htake := ipo_take _ _ h
  rw [show fence7.length = 7 from rfl, List.take_append_eq_append_take,
      List.take_of_length_le (le_of_lt hc)] at htake
  have hlast := fence3_take_getLast (7 - x.length) hk
  have hne : fence3.take (7 - x.length) ≠ [] := by
    intro hnil
    rw [hnil] at hlast
    simp at hlast
  have hl := congrArg List.getLast? htake
  rw [List.getLast?_append_of_ne_nil _ hne, hlast] at hl
  rw [show fence7.getLast? = some 'n' from rfl] at hl
  exact (by decide : ¬ (some '`' = some 'n')) hl

theorem removeAll_f7_append_f3 : ∀ (n : Nat) (x : List Char), x.length ≤ n →
    removeAll fence7 (x ++ fence3) = removeAll fence7 x ++ fence3 := by
  intro n
  induction n with
  | zero =>
    intro x hx
    have hx0 : x = [] := List.eq_nil_of_length_eq_zero (Nat.le_zero.mp hx)
    subst hx0
    rfl
  | succ n ih =>
    intro x hx
    match x with
    | [] => rfl
    | c :: cs =>
      rw [List.cons_append]
      by_cases hp : fence7.isPrefixOf (c :: (cs ++ fence3)) = true
      · have hlen : 7 ≤ (c :: cs).length :=
          f7_needs_seven (c :: cs) (by rwa [List.cons_append])
        have hp' : fence7.isPrefixOf (c :: cs) = true := by
          apply ipo_of_append_long fence7 (c :: cs) fence3
          · rwa [List.cons_append]
          · rw [show fence7.length = 7 from rfl]
            exact hlen
        rw [removeAll_cons_pos _ _ _ hp, removeAll_cons_pos _ _ _ hp']
        rw [show fence7.length - 1 = 6 from rfl]
        have h6 : 6 ≤ cs.length := by simpa using hlen
        rw [List.drop_append_eq_append_drop, Nat.sub_eq_zero_of_le h6, List.drop_zero]
        have hcs : cs.length ≤ n := by simpa using hx
        apply ih
        simp only [List.length_drop]
        omega
      · have hp' : fence7.isPrefixOf (c :: cs) = false := by
          rw [Bool.eq_false_iff]
          intro hcontra
          exact hp (by rw [← List.cons_append]; exact ipo_append _ _ _ hcontra)
        rw [removeAll_cons_neg _ _ _ (Bool.eq_false_iff.mpr hp), removeAll_cons_neg _ _ _ hp']
        rw [List.cons_append]
        exact congrArg (c :: ·) (ih cs (by simpa using hx))

theorem removeAll_f3_append_f3 : ∀ (n : Nat) (t : List Char), t.length ≤ n →
    removeAll fence3 (t ++ fence3) = removeAll fence3 t := by
  intro n
  induction n with
  | zero =>
    intro t ht
    have ht0 : t = [] := List.eq_nil_of_length_eq_zero (Nat.le_zero.mp ht)
    subst ht0
    rfl
  | succ n ih =>
    intro t ht
    match t with
    | [] => rfl
    | c :: cs =>
      rw [List.cons_append]
      by_cases hp' : fence3.isPrefixOf (c :: cs) = true
      · have hp : fence3.isPrefixOf (c :: (cs ++ fence3)) = true := by
          rw [← List.cons_append]
          exact ipo_append _ _ _ hp'
        rw [removeAll_cons_pos _ _ _ hp, removeAll_cons_pos _ _ _ hp']
        rw [show fence3.length - 1 = 2 from rfl]
        have h2 : 2 ≤ cs.length := by
          have hi := ipo_length _ _ hp'
          rw [show fence3.length = 3 from rfl, List.length_cons] at hi
          omega
        rw [List.drop_append_eq_append_drop, Nat.sub_eq_zero_of_le h2, List.drop_zero]
        have hcs : cs.length ≤ n := by simpa using ht
        apply ih
        simp only [List.length_drop]
        omega
      · by_cases hp : fence3.isPrefixOf (c :: (cs ++ fence3)) = true
        · have hlen : (c :: cs).length ≤ 2 := by
            by_contra hlc
            push_neg at hlc
            apply hp'
            apply ipo_of_append_long fence3 (c :: cs) fence3
            · rwa [List.cons_append]
            · rw [show fence3.length = 3 from rfl, List.length_cons]
              rw [List.length_cons] at hlc
              omega
          have htake := ipo_take _ _ hp
          rw [show fence3.length = 3 from rfl] at htake
          match cs with
          | [] =>
            have hc : c = '`' := by
              rw [show (c :: (([] : List Char) ++ fence3)).take 3 = [c, '`', '`'] from rfl,
                  fence3_eq] at htake
              exact (List.cons_eq_cons.mp htake).1
            subst hc
            rw [removeAll_cons_pos _ _ _ hp, show fence3.length - 1 = 2 from rfl]
            rfl
          | [c2] =>
            have hcc : c = '`' ∧ c2 = '`' := by
              rw [show (c :: ([c2] ++ fence3)).take 3 = [c, c2, '`'] from rfl,
                  fence3_eq] at htake
              have h1 := (List.cons_eq_cons.mp htake).1
              have h2 := (List.cons_eq_cons.mp (List.cons_eq_cons.mp htake).2).1
              exact ⟨h1, h2⟩
            obtain ⟨hc, hc2⟩ := hcc
            subst hc
            subst hc2
            rw [removeAll_cons_pos _ _ _ hp, show fence3.length - 1 = 2 from rfl]
            rfl
          | c2 :: c3 :: cs' =>
            exfalso
            simp at hlen
        · rw [removeAll_cons_neg _ _ _ (Bool.eq_false_iff.mpr hp),
              removeAll_cons_neg _ _ _ (Bool.eq_false_iff.mpr hp')]
          exact congrArg (c :: ·) (ih cs (by simpa using ht))

theorem removeAll_no_tick_append : ∀ (ps : List Char) (pre l : List Char),
    (∀ c ∈ pre, c ≠ '`') →
    removeAll ('`' :: ps) (pre ++ l) = pre ++ removeAll ('`' :: ps) l := by
  intro ps pre
  induction pre with
  | nil => intro l _; rfl
  | cons c pre' ih =>
    intro l hpre
    have hc : c ≠ '`' := hpre c (by simp)
    have hp : ('`' :: ps).isPrefixOf (c :: (pre' ++ l)) = false := by
      rw [Bool.eq_false_iff]
      intro hcontra
      simp only [List.isPrefixOf, Bool.and_eq_true] at hcontra
      exact hc (eq_of_beq hcontra.1).symm
    rw [List.cons_append, removeAll_cons_neg _ _ _ hp,
        ih l (fun d hd => hpre d (by simp [hd])), List.cons_append]

theorem pyStrip_head : ∀ (c : Char) (l : List Char), isPySpace c = false →
    ∃ t, pyStrip (c :: l) = c :: t := by
  intro c l hc
  unfold pyStrip
  rw [List.dropWhile_cons, hc]
  simp only [Bool.false_eq_true, if_false]
  rw [List.reverse_cons, List.dropWhile_append]
  by_cases he : (l.reverse.dropWhile isPySpace).isEmpty = true
  · rw [if_pos he]
    rw [List.dropWhile_cons, hc]
    simp only [Bool.false_eq_true, if_false]
    exact ⟨[], rfl⟩
  · rw [if_neg he]
    rw [List.reverse_append]
    exact ⟨(l.reverse.dropWhile isPySpace).reverse, rfl⟩

theorem jsonP_fst_E_head : ∀ (fuel : Nat) (l : List Char), (jsonP fuel).1 ('E' :: l) = none := by
  intro fuel l
  cases fuel with
  | zero => rfl
  | succ n => rfl

theorem parse_attempt_error_marked (name e : String) :
    parse_attempt name ("Error: " ++ e) = none := by
  have hdata : ("Error: " ++ e).data = "Error: ".data ++ e.data := String.data_append _ _
  have h7 : removeAll fence7 ("Error: ".data ++ e.data)
      = "Error: ".data ++ removeAll fence7 e.data := by
    rw [show fence7 = '`' :: "``json".data from rfl]
    exact removeAll_no_tick_append _ _ _ (by decide)
  have h3 : removeAll fence3 ("Error: ".data ++ removeAll fence7 e.data)
      = "Error: ".data ++ removeAll fence3 (removeAll fence7 e.data) := by
    rw [show fence3 = '`' :: "``".data from rfl]
    exact removeAll_no_tick_append _ _ _ (by decide)
  obtain ⟨t, ht⟩ : ∃ t, (clean_json ("Error: " ++ e)).data = 'E' :: t := by
    unfold clean_json
    rw [hdata, h7, h3]
    rw [show "Error: ".data ++ removeAll fence3 (removeAll fence7 e.data)
        = 'E' :: ("rror: ".data ++ removeAll fence3 (removeAll fence7 e.data)) from rfl]
    obtain ⟨t, ht⟩ := pyStrip_head 'E' ("rror: ".data ++ removeAll fence3 (removeAll fence7 e.data)) rfl
    exact ⟨t, by rw [ht]⟩
  unfold parse_attempt json_loads
  rw [ht, jsonP_fst_E_head]

theorem clean_json_fence_wrap (s : String) :
    clean_json ("```json" ++ s ++ "```") = clean_json s := by
  unfold clean_json
  have hdata : ("```json" ++ s ++ "```").data = fence7 ++ (s.data ++ fence3) := by
    rw [String.data_append, String.data_append, List.append_assoc]
    rfl
  rw [hdata, removeAll_f7_self,
      removeAll_f7_append_f3 s.data.length s.data le_rfl,
      removeAll_f3_append_f3 (removeAll fence7 s.data).length _ le_rfl]

theorem dictGet_dictInsert_self : ∀ (d : Dict) (k : String) (v : Json),
    dictGet (dictInsert d k v) k = some v := by
  intro d k v
  induction d with
  | nil => simp [dictInsert, dictGet]
  | cons kv rest ih =>
    obtain ⟨k', w⟩ := kv
    by_cases hk : k' = k
    · subst hk
      simp [dictInsert, dictGet]
    · simp [dictInsert, dictGet, hk]
      exact ih

/-- C5: for every raw response string `s`, wrapping it in the Markdown
code-fence markers (` ```json ` before, ` ``` ` after) changes neither the
cleaned string nor the parsed Verdict: the parser removes the fence markers
anywhere in the string and trims surrounding whitespace before strict JSON
parsing, so the wrapped and unwrapped responses are equivalent. -/
theorem c5_fence_wrapping_equivalent (s name : String) :
    clean_json ("```json" ++ s ++ "```") = clean_json s
    ∧ parse_attempt name ("```json" ++ s ++ "```") = parse_attempt name s := by
  refine ⟨clean_json_fence_wrap s, ?_⟩
  unfold parse_attempt
  rw [clean_json_fence_wrap s]

/-- C4 counterexample: the response `"{}"` parses as a JSON object that has
none of the schema's fields (`name`, `score`, `reason`, `skills_missing`),
yet the Result Parser does not treat it as a parse failure: a Verdict is
produced (consisting of the identity field only), contradicting the claim. -/
theorem c4_counterexample :
    parse_attempt "resume.pdf" "\x7b\x7d" = some [("file", Json.str "resume.pdf")]
    ∧ parse_attempt "resume.pdf" "\x7b\x7d" ≠ none := by
  constructor
  · rfl
  · intro h
    rw [show parse_attempt "resume.pdf" "\x7b\x7d"
        = some [("file", Json.str "resume.pdf")] from rfl] at h
    exact Option.noConfusion h

/-- C4 (amended): the Result Parser performs no schema validation: every
response whose cleaned form parses as a JSON object — whatever fields it has
or lacks — yields a Verdict (the parsed object augmented with the file
identity); only a non-object top level or malformed JSON is a failed
attempt. -/
theorem c4_any_object_accepted :
    ∀ (s name : String) (fs : Dict),
      json_loads (clean_json s) = some (Json.obj fs) →
      parse_attempt name s = some (dictInsert fs "file" (Json.str name)) := by
  intro s name fs h
  unfold parse_attempt
  rw [h]

theorem c4_any_object_accepted_witness :
    json_loads (clean_json "\x7b\"unrelated\": true\x7d")
      = some (Json.obj [("unrelated", Json.bool true)])
    ∧ parse_attempt "cv.pdf" "\x7b\"unrelated\": true\x7d"
      = some (dictInsert [("unrelated", Json.bool true)] "file" (Json.str "cv.pdf")) :=
  ⟨rfl, c4_any_object_accepted "\x7b\"unrelated\": true\x7d" "cv.pdf" _ rfl⟩

/-- C6: a raw response whose cleaned form is malformed JSON, and likewise one
whose cleaned form parses to a non-object top level (array, string, number),
is a signalled failure of the Result Parser: no Verdict and no partial
result is produced, so the attempt counts as failed. -/
theorem c6_malformed_or_non_object_fails :
    ∀ (s₁ s₂ name : String) (v : Json),
      json_loads (clean_json s₁) = none →
      json_loads (clean_json s₂) = some v →
      v.isObj = false →
      parse_attempt name s₁ = none ∧ parse_attempt name s₂ = none := by
  intro s₁ s₂ name v h1 h2 hv
  constructor
  · unfold parse_attempt
    rw [h1]
  · unfold parse_attempt
    rw [h2]
    cases v with
    | null => rfl
    | bool b => rfl
    | num q => rfl
    | str t => rfl
    | arr a => rfl
    | obj fs => exact absurd hv (by simp [Json.isObj])

theorem c6_malformed_or_non_object_fails_witness :
    json_loads (clean_json "The resume is great!") = none
    ∧ json_loads (clean_json "[1]") = some (Json.arr [Json.num 1])
    ∧ (Json.arr [Json.num 1]).isObj = false
    ∧ parse_attempt "r.pdf" "The resume is great!" = none
    ∧ parse_attempt "r.pdf" "[1]" = none := by
  refine ⟨rfl, rfl, rfl, ?_⟩
  exact c6_malformed_or_non_object_fails "The resume is great!" "[1]" "r.pdf"
    (Json.arr [Json.num 1]) rfl rfl rfl

/-- C10: every collected Verdict carries the originating upload's filename in
its `file` field: the identity augmentation `data['file'] = file.name` runs
after a successful parse and overwrites any model-supplied `file` value. -/
theorem c10_file_identity_overwritten :
    ∀ (name s : String) (d : Dict),
      parse_attempt name s = some d →
      dictGet d "file" = some (Json.str name) := by
  intro name s d h
  unfold parse_attempt at h
  cases hj : json_loads (clean_json s) with
  | none =>
    rw [hj] at h
    exact Option.noConfusion h
  | some v =>
    cases v with
    | obj fs =>
      rw [hj] at h
      have hd : dictInsert fs "file" (Json.str name) = d := Option.some.inj h
      rw [← hd]
      exact dictGet_dictInsert_self fs "file" _
    | null => rw [hj] at h; exact Option.noConfusion h
    | bool b => rw [hj] at h; exact Option.noConfusion h
    | num q => rw [hj] at h; exact Option.noConfusion h
    | str t => rw [hj] at h; exact Option.noConfusion h
    | arr a => rw [hj] at h; exact Option.noConfusion h

theorem c10_file_identity_overwritten_witness :
    parse_attempt "real.pdf" "\x7b\"file\": \"evil.pdf\", \"score\": 1\x7d"
      = some [("file", Json.str "real.pdf"), ("score", Json.num 1)]
    ∧ dictGet [("file", Json.str "real.pdf"), ("score", Json.num 1)] "file"
      = some (Json.str "real.pdf") :=
  ⟨rfl, c10_file_identity_overwritten "real.pdf" "\x7b\"file\": \"evil.pdf\", \"score\": 1\x7d"
    [("file", Json.str "real.pdf"), ("score", Json.num 1)] rfl⟩

/-- C8: the Verdict Requester never propagates an exception: any error raised
while configuring the client or generating content is caught at the
requester boundary and returned as the error-marked string `"Error: " ++ e`,
and such a string fails JSON parsing, so the Retry Wrapper treats the
attempt as failed. -/
theorem c8_requester_error_as_data :
    ∀ (oracle : String → Except String String)
      (input_prompt pdf_content job_description name e : String),
      oracle (combined_prompt input_prompt job_description pdf_content) = Except.error e →
      get_gemini_response oracle input_prompt pdf_content job_description = "Error: " ++ e
      ∧ parse_attempt name (get_gemini_response oracle input_prompt pdf_content job_description)
          = none := by
  intro oracle p t jd name e h
  have h1 : get_gemini_response oracle p t jd = "Error: " ++ e := by
    unfold get_gemini_response
    rw [h]
  refine ⟨h1, ?_⟩
  rw [h1]
  exact parse_attempt_error_marked name e

theorem c8_requester_error_as_data_witness :
    get_gemini_response (fun _ => Except.error "429 Resource has been exhausted") tPROMPT "TEXT" tJD
      = "Error: " ++ "429 Resource has been exhausted"
    ∧ parse_attempt "r.pdf"
        (get_gemini_response (fun _ => Except.error "429 Resource has been exhausted") tPROMPT "TEXT" tJD)
      = none :=
  c8_requester_error_as_data (fun _ => Except.error "429 Resource has been exhausted")
    tPROMPT "TEXT" tJD "r.pdf" "429 Resource has been exhausted" rfl

theorem run_retries_eq (op : Nat → Option Dict) : run_retries op =
    match op 0 with
    | some v => (some v, 1)
    | none =>
      match op 1 with
      | some v => (some v, 2)
      | none =>
        match op 2 with
        | some v => (some v, 3)
        | none => (none, 3) := rfl

/-- C3: the Retry Wrapper invokes the composed request-and-parse operation at
most 3 times; an operation that fails twice then succeeds makes exactly 3
attempts and contributes exactly one Verdict to the results; an operation
that always fails makes exactly 3 attempts and contributes none (silent
drop, no placeholder). -/
theorem c3_retry_budget_three :
    ∀ (op fop : Nat → Option Dict) (v : Dict),
      op 0 = none → op 1 = none → op 2 = some v →
      (∀ k, fop k = none) →
      (∀ q : Nat → Option Dict, (run_retries q).2 ≤ 3)
      ∧ run_retries op = (some v, 3)
      ∧ (run_retries op).1.toList = [v]
      ∧ run_retries fop = (none, 3)
      ∧ (run_retries fop).1.toList = [] := by
  intro op fop v h0 h1 h2 hf
  have hops : run_retries op = (some v, 3) := by
    rw [run_retries_eq, h0, h1, h2]
  have hfop : run_retries fop = (none, 3) := by
    rw [run_retries_eq, hf 0, hf 1, hf 2]
  refine ⟨?_, hops, by rw [hops]; rfl, hfop, by rw [hfop]; rfl⟩
  intro q
  rw [run_retries_eq]
  cases q 0 with
  | some w => simp
  | none =>
    cases q 1 with
    | some w => simp
    | none =>
      cases q 2 with
      | some w => simp
      | none => simp

theorem c3_retry_budget_three_witness :
    (fun k => if k = 2 then some [("score", Json.num 1)] else none) 0 = none
    ∧ (fun k => if k = 2 then some [("score", Json.num 1)] else none) 1 = none
    ∧ (fun k => if k = 2 then some [("score", Json.num 1)] else none) 2
        = some [("score", Json.num 1)]
    ∧ run_retries (fun k => if k = 2 then some [("score", Json.num 1)] else none)
        = (some [("score", Json.num 1)], 3)
    ∧ run_retries (fun _ => none) = (none, 3) := by
  refine ⟨rfl, rfl, rfl, ?_, ?_⟩
  · exact (c3_retry_budget_three
      (fun k => if k = 2 then some [("score", Json.num 1)] else none)
      (fun _ => none) [("score", Json.num 1)] rfl rfl rfl (fun _ => rfl)).2.1
  · exact (c3_retry_budget_three
      (fun k => if k = 2 then some [("score", Json.num 1)] else none)
      (fun _ => none) [("score", Json.num 1)] rfl rfl rfl (fun _ => rfl)).2.2.2.1

theorem rank_le_trans_bool : ∀ a b c : Dict, rank_le a b → rank_le b c → rank_le a c := by
  intro a b c hab hbc
  simp only [rank_le, decide_eq_true_eq] at hab hbc ⊢
  exact le_trans hbc hab

theorem rank_le_total_bool : ∀ a b : Dict, rank_le a b || rank_le b a := by
  intro a b
  simp only [rank_le, Bool.or_eq_true, decide_eq_true_eq]
  exact le_total _ _

theorem mergeSort_filter_tie (q : Rat) (l : List Dict) :
    (l.mergeSort rank_le).filter (fun d => decide (score_key d = q))
      = l.filter (fun d => decide (score_key d = q)) := by
  have hsub : List.Sublist (l.filter (fun d => decide (score_key d = q))) (l.mergeSort rank_le) := by
    apply List.sublist_mergeSort rank_le_trans_bool rank_le_total_bool
    · apply List.pairwise_of_forall_mem_list
      intro a ha b hb
      have ha' := List.of_mem_filter ha
      have hb' := List.of_mem_filter hb
      simp only [decide_eq_true_eq] at ha' hb'
      simp [rank_le, ha', hb']
    · exact List.filter_sublist l
  have hperm : List.Perm ((l.mergeSort rank_le).filter (fun d => decide (score_key d = q)))
      (l.filter (fun d => decide (score_key d = q))) :=
    (List.mergeSort_perm l rank_le).filter _
  have hsub2 : List.Sublist (l.filter (fun d => decide (score_key d = q)))
      ((l.mergeSort rank_le).filter (fun d => decide (score_key d = q))) := by
    have hff := hsub.filter (fun d => decide (score_key d = q))
    rwa [List.filter_filter, show (fun a => decide (score_key a = q) && decide (score_key a = q))
        = (fun a => decide (score_key a = q)) from funext (fun a => Bool.and_self _)] at hff
  exact (hsub2.eq_of_length hperm.length_eq.symm).symm

/-- C2: for every `N ≥ 1` and every sequence of collected Verdicts (whose
scores are numbers or absent, the only case on which Python's comparison is
defined), the Ranker's output has length `min N (length input)`, is sorted
descending by the numeric score key, and Verdicts with equal scores appear
in the same relative order as in the input sequence (stable tie-break by
original collection order). -/
theorem c2_ranker_top_n :
    ∀ (n_matches : Nat) (results : List Dict),
      1 ≤ n_matches →
      (∀ d ∈ results, score_is_numeric d = true) →
      (top_candidates results n_matches).length = min n_matches results.length
      ∧ List.Pairwise (fun a b => score_key b ≤ score_key a) (top_candidates results n_matches)
      ∧ ∀ q : Rat,
          List.Sublist
            ((top_candidates results n_matches).filter (fun d => decide (score_key d = q)))
            (results.filter (fun d => decide (score_key d = q))) := by
  intro n results hn hnum
  refine ⟨?_, ?_, ?_⟩
  · unfold top_candidates
    rw [List.length_take, List.length_mergeSort]
  · unfold top_candidates
    have hs := List.sorted_mergeSort rank_le_trans_bool rank_le_total_bool results
    have ht := List.Pairwise.sublist (List.take_sublist n (results.mergeSort rank_le)) hs
    exact ht.imp (fun h => by simpa [rank_le] using h)
  · intro q
    unfold top_candidates
    have heq := mergeSort_filter_tie q results
    have hsub := (List.take_sublist n (results.mergeSort rank_le)).filter
      (fun d => decide (score_key d = q))
    rwa [heq] at hsub

theorem c2_ranker_top_n_witness :
    1 ≤ 2
    ∧ (∀ d ∈ [[("score", Json.num 60)], [("score", Json.num 90)], [("name", Json.str "Jo")]],
        score_is_numeric d = true)
    ∧ ((top_candidates [[("score", Json.num 60)], [("score", Json.num 90)], [("name", Json.str "Jo")]] 2).length
        = min 2 [[("score", Json.num 60)], [("score", Json.num 90)], [("name", Json.str "Jo")]].length
      ∧ List.Pairwise (fun a b => score_key b ≤ score_key a)
          (top_candidates [[("score", Json.num 60)], [("score", Json.num 90)], [("name", Json.str "Jo")]] 2)
      ∧ ∀ q : Rat,
          List.Sublist
            ((top_candidates [[("score", Json.num 60)], [("score", Json.num 90)], [("name", Json.str "Jo")]] 2).filter
              (fun d => decide (score_key d = q)))
            ([[("score", Json.num 60)], [("score", Json.num 90)], [("name", Json.str "Jo")]].filter
              (fun d => decide (score_key d = q)))) :=
  ⟨by decide, by decide,
    c2_ranker_top_n 2 [[("score", Json.num 60)], [("score", Json.num 90)], [("name", Json.str "Jo")]]
      (by decide) (by decide)⟩

/-- C7: a collected Verdict whose `score` field is absent is ordered by the
Ranker exactly as though its score were `0`: its sort key is the documented
default `0`, it compares (in both directions) identically to the same
Verdict with an explicit score of `0`, and it sorts below any Verdict with a
positive score; a missing score is not an error for ranking. -/
theorem c7_missing_score_sorts_as_zero :
    ∀ d : Dict, dictGet d "score" = none →
      get_score d = Json.num 0
      ∧ score_key d = 0
      ∧ (∀ x : Dict, rank_le x d = rank_le x (dictInsert d "score" (Json.num 0))
          ∧ rank_le d x = rank_le (dictInsert d "score" (Json.num 0)) x)
      ∧ (∀ x : Dict, 0 < score_key x → rank_le x d = true ∧ rank_le d x = false) := by
  intro d hd
  have h0 : get_score d = Json.num 0 := by
    unfold get_score
    rw [hd]
    rfl
  have hk : score_key d = 0 := by
    unfold score_key
    rw [h0]
  have hk' : score_key (dictInsert d "score" (Json.num 0)) = 0 := by
    unfold score_key get_score
    rw [dictGet_dictInsert_self]
    rfl
  refine ⟨h0, hk, ?_, ?_⟩
  · intro x
    constructor
    · simp [rank_le, hk, hk']
    · simp [rank_le, hk, hk']
  · intro x hx
    constructor
    · simp only [rank_le, hk, decide_eq_true_eq]
      exact le_of_lt hx
    · simp only [rank_le, hk, decide_eq_false_iff_not]
      exact fun hcontra => absurd hx (not_lt.mpr hcontra)

theorem c7_missing_score_sorts_as_zero_witness :
    dictGet [("name", Json.str "Zed")] "score" = none
    ∧ (get_score [("name", Json.str "Zed")] = Json.num 0
      ∧ score_key [("name", Json.str "Zed")] = 0
      ∧ (∀ x : Dict, rank_le x [("name", Json.str "Zed")]
            = rank_le x (dictInsert [("name", Json.str "Zed")] "score" (Json.num 0))
          ∧ rank_le [("name", Json.str "Zed")] x
            = rank_le (dictInsert [("name", Json.str "Zed")] "score" (Json.num 0)) x)
      ∧ (∀ x : Dict, 0 < score_key x →
          rank_le x [("name", Json.str "Zed")] = true
          ∧ rank_le [("name", Json.str "Zed")] x = false)) :=
  ⟨rfl, c7_missing_score_sorts_as_zero [("name", Json.str "Zed")] rfl⟩

theorem run_batch_cons (p jd : String) (f : UploadedFile) (rest : List UploadedFile) :
    run_batch p jd (f :: rest) =
      match f.extract with
      | .error e => .error e
      | .ok text =>
        match run_batch p jd rest with
        | .error e => .error e
        | .ok tl => .ok ((run_retries (file_attempt p jd f text)).1.toList ++ tl) := rfl

theorem run_batch_cons_ok (p jd : String) (f : UploadedFile) (rest : List UploadedFile)
    (text : String) (hf : f.extract = Except.ok text) :
    run_batch p jd (f :: rest) =
      match run_batch p jd rest with
      | .error e => .error e
      | .ok tl => .ok ((run_retries (file_attempt p jd f text)).1.toList ++ tl) := by
  rw [run_batch_cons, hf]

theorem run_batch_cons_err (p jd : String) (f : UploadedFile) (rest : List UploadedFile)
    (e : String) (hf : f.extract = Except.error e) :
    run_batch p jd (f :: rest) = Except.error e := by
  rw [run_batch_cons, hf]

/-- C1 counterexample: a batch of three resumes in which the second fails
text extraction.  The claim says the Batch Orchestrator does not halt and
the output contains the Verdicts of the other documents; in fact the
uncaught extraction exception aborts the whole run with no output at all,
even though each of the other two documents on its own yields a Verdict. -/
theorem c1_counterexample :
    run_batch tPROMPT tJD [fileA, fileB, fileC]
      = Except.error "PdfReadError: EOF marker not found"
    ∧ run_batch tPROMPT tJD [fileA]
      = Except.ok [[("name", Json.str "Ann"), ("score", Json.num 90), ("file", Json.str "a.pdf")]]
    ∧ run_batch tPROMPT tJD [fileC]
      = Except.ok [[("name", Json.str "Cy"), ("score", Json.num 70), ("file", Json.str "c.pdf")]] :=
  ⟨rfl, rfl, rfl⟩

/-- C1 (amended): an extraction failure is NOT contained to its document:
`input_pdf_text` runs outside the `try`, so whenever any document in the
batch fails extraction (all documents before it extracting normally), the
Batch Orchestrator halts with that document's error and the batch produces
no output at all — remaining files are not processed and no Verdict of any
other document is delivered.  Only model-request and parse failures are
contained by the retry loop. -/
theorem c1_extraction_aborts_batch :
    ∀ (p jd : String) (l₁ : List UploadedFile) (f : UploadedFile)
      (l₂ : List UploadedFile) (e : String),
      (∀ g ∈ l₁, ∃ t, g.extract = Except.ok t) →
      f.extract = Except.error e →
      run_batch p jd (l₁ ++ f :: l₂) = Except.error e := by
  intro p jd l₁
  induction l₁ with
  | nil =>
    intro f l₂ e _ hf
    rw [List.nil_append]
    exact run_batch_cons_err p jd f l₂ e hf
  | cons g l₁' ih =>
    intro f l₂ e hok hf
    obtain ⟨t, ht⟩ := hok g (by simp)
    rw [List.cons_append, run_batch_cons_ok p jd g _ t ht,
        ih f l₂ e (fun g' hg' => hok g' (by simp [hg'])) hf]

theorem c1_extraction_aborts_batch_witness :
    (∀ g ∈ [fileA], ∃ t, g.extract = Except.ok t)
    ∧ fileB.extract = Except.error "PdfReadError: EOF marker not found"
    ∧ run_batch tPROMPT tJD ([fileA] ++ fileB :: [fileC])
      = Except.error "PdfReadError: EOF marker not found" := by
  refine ⟨?_, rfl, ?_⟩
  · intro g hg
    simp only [List.mem_singleton] at hg
    subst hg
    exact ⟨"TEXT A", rfl⟩
  · exact c1_extraction_aborts_batch tPROMPT tJD [fileA] fileB [fileC]
      "PdfReadError: EOF marker not found"
      (fun g hg => by
        simp only [List.mem_singleton] at hg
        subst hg
        exact ⟨"TEXT A", rfl⟩)
      rfl

theorem length_filterMap_isSome (g : UploadedFile → Option Dict) :
    ∀ l : List UploadedFile,
      (l.filterMap g).length = l.countP (fun f => (g f).isSome) := by
  intro l
  induction l with
  | nil => rfl
  | cons f rest ih =>
    cases hg : g f with
    | none => simp [List.filterMap_cons, hg, List.countP_cons, ih]
    | some v => simp [List.filterMap_cons, hg, List.countP_cons, ih]

/-- C9 counterexample: the claim quantifies over every batch, but a batch
whose second file fails extraction is not processed to completion in order:
the run aborts and no collected-results sequence is produced at all, even
though the third document on its own is a non-dropped document with a
Verdict. -/
theorem c9_counterexample :
    run_batch tPROMPT tJD [fileD, fileE, fileF]
      = Except.error "PdfReadError: could not read malformed PDF file"
    ∧ run_batch tPROMPT tJD [fileF]
      = Except.ok [[("score", Json.num 45), ("file", Json.str "f.pdf")]] :=
  ⟨rfl, rfl⟩

/-- C9 (amended): for every batch in which every document's extraction
succeeds, the Batch Orchestrator processes the files strictly in upload
order, and the collected results are exactly the per-file retry outcomes in
that order, one Verdict per non-dropped document: the sequence is the
order-preserving `filterMap` of the files, and its length equals the number
of non-dropped documents. -/
theorem c9_order_and_one_per_document :
    ∀ (p jd : String) (files : List UploadedFile) (tf : UploadedFile → String),
      (∀ f ∈ files, f.extract = Except.ok (tf f)) →
      run_batch p jd files
        = Except.ok (files.filterMap (fun f => (run_retries (file_attempt p jd f (tf f))).1))
      ∧ (files.filterMap (fun f => (run_retries (file_attempt p jd f (tf f))).1)).length
        = files.countP (fun f => ((run_retries (file_attempt p jd f (tf f))).1).isSome) := by
  intro p jd files tf hok
  refine ⟨?_, length_filterMap_isSome _ files⟩
  induction files with
  | nil => rfl
  | cons f rest ih =>
    rw [run_batch_cons_ok p jd f rest (tf f) (hok f (by simp)),
        ih (fun g hg => hok g (by simp [hg]))]
    rw [List.filterMap_cons]
    cases hr : (run_retries (file_attempt p jd f (tf f))).1 with
    | none => simp [hr]
    | some v => simp [hr]

theorem c9_order_and_one_per_document_witness :
    (∀ f ∈ [fileA, fileG], f.extract
        = Except.ok ((fun g => match g.extract with | .ok t => t | .error _ => "") f))
    ∧ (run_batch tPROMPT tJD [fileA, fileG]
        = Except.ok ([fileA, fileG].filterMap (fun f =>
            (run_retries (file_attempt tPROMPT tJD f
              ((fun g => match g.extract with | .ok t => t | .error _ => "") f))).1))
      ∧ ([fileA, fileG].filterMap (fun f =>
            (run_retries (file_attempt tPROMPT tJD f
              ((fun g => match g.extract with | .ok t => t | .error _ => "") f))).1)).length
        = [fileA, fileG].countP (fun f =>
            ((run_retries (file_attempt tPROMPT tJD f
              ((fun g => match g.extract with | .ok t => t | .error _ => "") f))).1).isSome)) := by
  refine ⟨?_, ?_⟩
  · intro f hf
    cases hf with
    | head => rfl
    | tail _ hf' =>
      cases hf' with
      | head => rfl
      | tail _ h => cases h
  · exact c9_order_and_one_per_document tPROMPT tJD [fileA, fileG]
      (fun g => match g.extract with | .ok t => t | .error _ => "")
      (fun f hf => by
        cases hf with
        | head => rfl
        | tail _ hf' =>
          cases hf' with
          | head => rfl
          | tail _ h => cases h)

end HR
